import Mathlib

/-!
Shallow embedding of the tiktokenizer core: the model catalog
(`src/models/index.ts`), the two tokenizer adapters, the adaptive
segmentation / chunking layer, and the process-wide tokenizer cache
(`src/models/tokenizer.ts`, here `src/unnamed/part_001`).

Text is modelled as a list of characters.  The two external tokenizer
engines (the tiktoken byte-pair encoder and the transformers pretrained
tokenizer) are parameters of the embedding: an engine is a record of an
encode function and an aligned-segments function, exactly the surface the
repository code calls into.
-/

/-- Input text, modelled as a sequence of characters. -/
abbrev Str := List Char

/-- One token inside a segment: a token id together with its index `idx`
in the full token sequence (`~/utils/segments` produces these). -/
structure SegmentToken where
  id : Nat
  idx : Nat
deriving DecidableEq, Repr

/-- A visual segment: a span of the source text together with the tokens it
decomposes into. -/
structure Segment where
  text : Str
  tokens : List SegmentToken
deriving DecidableEq, Repr

/-- `TokenizeOptions` from `tokenizer.ts`: `fastMode?`, `chunkSize?`,
`maxTokens?`.  An absent options object behaves exactly like the default
record (all fields absent / falsy). -/
structure TokenizeOptions where
  fastMode : Bool := false
  chunkSize : Option Nat := none
  maxTokens : Option Nat := none
deriving DecidableEq, Repr

/-- `TokenizerResult` from `tokenizer.ts`.  Both adapters always populate
the (TypeScript-optional) `segments` field, so it is modelled as a plain
list. -/
structure TokenizerResult where
  name : String
  tokens : List Nat
  segments : List Segment
  count : Nat
deriving DecidableEq, Repr

/-- Models the JavaScript expression `x || d` for an optional numeric
option: both an absent value and `0` are falsy and fall back to the
default `d`. -/
def orFalsy : Option Nat → Nat → Nat
  | none, d => d
  | some 0, d => d
  | some (n + 1), _ => n + 1

/- ------------------------------------------------------------------
Model catalog, from `src/models/index.ts`.
------------------------------------------------------------------ -/

def oaiEncodings : List String :=
  ["gpt2", "r50k_base", "p50k_base", "p50k_edit", "cl100k_base", "o200k_base"]

def chatModels : List String :=
  ["gpt-4o", "gpt-3.5-turbo", "gpt-4", "gpt-4-32k", "gpt-4-1106-preview"]

def legacyTextModels : List String :=
  ["text-davinci-003", "text-davinci-002", "text-davinci-001",
   "text-curie-001", "text-babbage-001", "text-ada-001",
   "davinci", "curie", "babbage", "ada",
   "code-davinci-002", "code-davinci-001", "code-cushman-002",
   "code-cushman-001", "davinci-codex", "cushman-codex",
   "text-davinci-edit-001", "code-davinci-edit-001"]

def embeddingModels : List String :=
  ["text-embedding-ada-002", "text-embedding-3-small", "text-embedding-3-large"]

def legacyEmbeddingModels : List String :=
  ["text-similarity-davinci-001", "text-similarity-curie-001",
   "text-similarity-babbage-001", "text-similarity-ada-001",
   "text-search-davinci-doc-001", "text-search-curie-doc-001",
   "text-search-babbage-doc-001", "text-search-ada-doc-001",
   "code-search-babbage-code-001", "code-search-ada-code-001"]

/-- `oaiModels = [...chatModels, ...legacyTextModels,
...legacyEmbeddingModels, ...embeddingModels]`. -/
def oaiModels : List String :=
  chatModels ++ legacyTextModels ++ legacyEmbeddingModels ++ embeddingModels

def openSourceModels : List String :=
  ["deepseek-ai/DeepSeek-R1", "Qwen/Qwen2.5-72B", "01-ai/Yi-6B", "openai/whisper-tiny"]

/-- `hackModelsRemoveFirstToken`: the fixed quirk list of model families
whose engine prepends a leading pseudo-token. -/
def hackModelsRemoveFirstToken : List String :=
  ["meta-llama/Llama-2-7b-hf", "codellama/CodeLlama-7b-hf", "codellama/CodeLlama-70b-hf"]

/- ------------------------------------------------------------------
External engines, as the surface the adapters call.
------------------------------------------------------------------ -/

/-- The external tiktoken encoding held by a `TiktokenTokenizer`:
`encodeAll` is `enc.encode(text, "all")` (used to build `tokens`),
`encode` is `enc.encode(chunk)` (used to compute chunk token offsets),
`segments` is `getTiktokenSegments(enc, text)`. -/
structure TiktokenEncoding where
  encodeAll : Str → List Nat
  encode : Str → List Nat
  segments : Str → List Segment

/-- The external pretrained tokenizer held by an `OpenSourceTokenizer`:
`encode` is `tokenizer.encode(text)` and `segments` is
`getHuggingfaceSegments(tokenizer, text, removeFirstToken)`. -/
structure PreTrainedTok where
  encode : Str → List Nat
  segments : Str → Bool → List Segment

/- ------------------------------------------------------------------
Chunking and the per-chunk stitching loop.
------------------------------------------------------------------ -/

/-- The body of `chunkText`'s loop
`for (let i = 0; i < text.length; i += chunkSize)`, made explicit with a
fuel argument: `none` means the fuel ran out, which captures the fact that
for `chunkSize = 0` the loop index never advances on non-empty text. -/
def chunkTextLoop (text : Str) (chunkSize i fuel : Nat) : Option (List Str) :=
  match fuel with
  | 0 => none
  | fuel' + 1 =>
    if i < text.length then
      match chunkTextLoop text chunkSize (i + chunkSize) fuel' with
      | none => none
      | some rest => some ((text.drop i).take chunkSize :: rest)
    else
      some []

/-- `chunkText(text, chunkSize)`: fixed-width slicing
`text.slice(i, i + chunkSize)`.  For `chunkSize ≥ 1` the fuel
`text.length + 1` is always sufficient (proved below), so the `getD []`
fallback is never taken on the inputs the adapters produce. -/
def chunkText (text : Str) (chunkSize : Nat) : List Str :=
  (chunkTextLoop text chunkSize 0 (text.length + 1)).getD []

/-- Rewrites every token's `idx` inside one segment by adding the running
offset (the `adjustedSegments` map in `getSegmentsOptimized`). -/
def adjustSegment (off : Nat) (s : Segment) : Segment :=
  { s with tokens := s.tokens.map (fun t => { t with idx := t.idx + off }) }

/-- The chunk-stitching loop shared by both `getSegmentsOptimized`
implementations: per chunk, compute segments, shift their `idx` by the
running token offset, append; the offset grows by the length of the
chunk's own re-encoding. -/
def segmentChunks (segs : Str → List Segment) (enc : Str → List Nat) :
    List Str → Nat → List Segment
  | [], _ => []
  | c :: rest, off =>
    (segs c).map (adjustSegment off) ++
      segmentChunks segs enc rest (off + (enc c).length)

/- ------------------------------------------------------------------
TiktokenTokenizer (the encoding-engine adapter).
------------------------------------------------------------------ -/

/-- `TiktokenTokenizer.shouldUseFastMode`: explicit request, or text
longer than 10000 characters, or token count above
`options?.maxTokens || 2000`. -/
def TiktokenTokenizer.shouldUseFastMode (text : Str) (tokenCount : Nat)
    (options : TokenizeOptions) : Bool :=
  if options.fastMode then true
  else if text.length > 10000 then true
  else if tokenCount > orFalsy options.maxTokens 2000 then true
  else false

/-- `TiktokenTokenizer.getSegmentsOptimized` (its `tokens` parameter is
unused in the source body and omitted here): direct path for short text,
chunked path otherwise, with chunk size `options?.chunkSize || 5000`. -/
def TiktokenTokenizer.getSegmentsOptimized (enc : TiktokenEncoding) (text : Str)
    (options : TokenizeOptions) : List Segment :=
  let chunkSize := orFalsy options.chunkSize 5000
  if text.length ≤ chunkSize then
    enc.segments text
  else
    segmentChunks enc.segments enc.encode (chunkText text chunkSize) 0

/-- `TiktokenTokenizer.tokenize`. -/
def TiktokenTokenizer.tokenize (enc : TiktokenEncoding) (name : String) (text : Str)
    (options : TokenizeOptions) : TokenizerResult :=
  let tokens := enc.encodeAll text
  if TiktokenTokenizer.shouldUseFastMode text tokens.length options then
    ⟨name, tokens, [], tokens.length⟩
  else
    ⟨name, tokens, TiktokenTokenizer.getSegmentsOptimized enc text options, tokens.length⟩

/- ------------------------------------------------------------------
OpenSourceTokenizer (the pretrained-vocabulary adapter).
------------------------------------------------------------------ -/

/-- `OpenSourceTokenizer.shouldUseFastMode`: explicit request, or text
longer than 5000 characters, or token count above
`options?.maxTokens || 1500`. -/
def OpenSourceTokenizer.shouldUseFastMode (text : Str) (tokenCount : Nat)
    (options : TokenizeOptions) : Bool :=
  if options.fastMode then true
  else if text.length > 5000 then true
  else if tokenCount > orFalsy options.maxTokens 1500 then true
  else false

/-- `OpenSourceTokenizer.getSegmentsOptimized`, chunk size
`options?.chunkSize || 3000`. -/
def OpenSourceTokenizer.getSegmentsOptimized (tok : PreTrainedTok) (text : Str)
    (removeFirstToken : Bool) (options : TokenizeOptions) : List Segment :=
  let chunkSize := orFalsy options.chunkSize 3000
  if text.length ≤ chunkSize then
    tok.segments text removeFirstToken
  else
    segmentChunks (fun c => tok.segments c removeFirstToken) tok.encode
      (chunkText text chunkSize) 0

/-- `OpenSourceTokenizer.tokenize` with the `removeFirstToken` flag made
an explicit parameter; the adapter itself computes the flag from its name
(see `OpenSourceTokenizer.tokenize`). -/
def OpenSourceTokenizer.tokenizeCore (tok : PreTrainedTok) (name : String)
    (removeFirstToken : Bool) (text : Str) (options : TokenizeOptions) : TokenizerResult :=
  let tokens := tok.encode text
  if OpenSourceTokenizer.shouldUseFastMode text tokens.length options then
    ⟨name, tokens, [], tokens.length⟩
  else
    ⟨name, tokens,
      OpenSourceTokenizer.getSegmentsOptimized tok text removeFirstToken options,
      tokens.length⟩

/-- `OpenSourceTokenizer.tokenize`: the flag is
`hackModelsRemoveFirstToken.options.includes(this.name)`. -/
def OpenSourceTokenizer.tokenize (tok : PreTrainedTok) (name : String) (text : Str)
    (options : TokenizeOptions) : TokenizerResult :=
  OpenSourceTokenizer.tokenizeCore tok name
    (hackModelsRemoveFirstToken.contains name) text options

/- ------------------------------------------------------------------
The tokenizer cache and `createTokenizer`, as a state machine over the
process-wide `tokenizerCache` map.  Adapter instances are identified by a
fresh numeric id drawn at construction, so "the very same instance" is
expressible; `constructions` counts expensive constructions (adapter
construction or remote vocabulary load).
------------------------------------------------------------------ -/

/-- Which adapter class a cached instance belongs to. -/
inductive TokKind where
  | tiktoken
  | oss
deriving DecidableEq, Repr

/-- One constructed adapter instance.  `id` is the construction identity
(two instances are "the same object" exactly when their ids agree). -/
structure Inst where
  id : Nat
  name : String
  kind : TokKind
deriving DecidableEq, Repr

/-- The `TiktokenTokenizer` constructor.  `encName` models the external
engine's `enc.name` (the constructor stores `enc.name ?? model`); the
external calls `get_encoding` / `encoding_for_model` themselves are
assumed to succeed.  Re-parses the identifier exactly as the source does:
model first (rejecting the two "too new" embedding models), then
encoding, else `Invalid model or encoding`. -/
def TiktokenTokenizer.construct (encName : String → Option String) (model : String)
    (fresh : Nat) : Except String Inst :=
  if model ∈ oaiModels then
    if model = "text-embedding-3-small" ∨ model = "text-embedding-3-large" then
      Except.error "Model may be too new"
    else
      Except.ok ⟨fresh, (encName model).getD model, TokKind.tiktoken⟩
  else if model ∈ oaiEncodings then
    Except.ok ⟨fresh, model, TokKind.tiktoken⟩
  else
    Except.error "Invalid model or encoding"

/-- The process state `createTokenizer` mutates: the `tokenizerCache`
map (an association list, newest entry first), the next fresh instance
id, and a counter of expensive constructions performed so far. -/
structure CacheState where
  cache : List (String × Inst)
  nextId : Nat
  constructions : Nat
deriving DecidableEq, Repr

/-- `tokenizerCache.get` / `.has`, on the association-list model. -/
def cacheLookup (key : String) : List (String × Inst) → Option Inst
  | [] => none
  | (k, v) :: rest => if k = key then some v else cacheLookup key rest

/-- The cache key: `` `${name}_${options?.hostInfo || 'default'}` ``
(an absent or empty host override is falsy and becomes `default`). -/
def cacheKeyOf (name : String) (hostInfo : Option String) : String :=
  name ++ "_" ++
    (match hostInfo with
     | none => "default"
     | some "" => "default"
     | some h => h)

/-- `createTokenizer(name, options)`.  `loadOk` models whether the remote
vocabulary load (`OpenSourceTokenizer.load`) succeeds for a given model;
a failed load or a throwing constructor yields an error and, crucially,
no cache insertion.  The result pairs the returned value (or error) with
the post-call state. -/
def createTokenizer (encName : String → Option String) (loadOk : String → Bool)
    (name : String) (hostInfo : Option String) (s : CacheState) :
    Except String Inst × CacheState :=
  let cacheKey := cacheKeyOf name hostInfo
  match cacheLookup cacheKey s.cache with
  | some t => (Except.ok t, s)
  | none =>
    if name ∈ oaiEncodings then
      match TiktokenTokenizer.construct encName name s.nextId with
      | Except.error e => (Except.error e, s)
      | Except.ok t =>
        (Except.ok t, ⟨(cacheKey, t) :: s.cache, s.nextId + 1, s.constructions + 1⟩)
    else if name ∈ oaiModels then
      match TiktokenTokenizer.construct encName name s.nextId with
      | Except.error e => (Except.error e, s)
      | Except.ok t =>
        (Except.ok t, ⟨(cacheKey, t) :: s.cache, s.nextId + 1, s.constructions + 1⟩)
    else if name ∈ openSourceModels then
      if loadOk name then
        (Except.ok ⟨s.nextId, name, TokKind.oss⟩,
          ⟨(cacheKey, ⟨s.nextId, name, TokKind.oss⟩) :: s.cache,
            s.nextId + 1, s.constructions + 1⟩)
      else
        (Except.error "load failed", s)
    else
      (Except.error "Invalid model or encoding", s)

/- ------------------------------------------------------------------
Concrete demonstration engines, used by the witness theorems.  Each chunk
gets one segment covering the whole chunk, whose single token has index 0,
and encoding produces one token id per character; these satisfy the
lossless-decomposition and bounded-index hypotheses of the external
engines.
------------------------------------------------------------------ -/

def demoSegs : Str → List Segment := fun t => [⟨t, [⟨0, 0⟩]⟩]

def demoEnc : Str → List Nat := fun t => List.replicate t.length 0

def demoEncoding : TiktokenEncoding := ⟨demoEnc, demoEnc, demoSegs⟩

def demoPreTrained : PreTrainedTok := ⟨demoEnc, fun t _ => demoSegs t⟩

/-- A 10001-character input: long enough to trip the encoding adapter's
automatic fast-mode trigger (10000 characters). -/
def longText : Str := List.replicate 10001 'a'

/-- The `idx` values occurring in a segment list, in order. -/
def idxList (segs : List Segment) : List Nat :=
  (segs.map (fun s => s.tokens.map SegmentToken.idx)).flatten

/- ------------------------------------------------------------------
Helper lemmas.
------------------------------------------------------------------ -/

lemma TiktokenTokenizer.tokenize_tokens (enc : TiktokenEncoding) (name : String)
    (text : Str) (options : TokenizeOptions) :
    (TiktokenTokenizer.tokenize enc name text options).tokens = enc.encodeAll text := by
  simp only [TiktokenTokenizer.tokenize]
  split <;> rfl

lemma TiktokenTokenizer.tokenize_count (enc : TiktokenEncoding) (name : String)
    (text : Str) (options : TokenizeOptions) :
    (TiktokenTokenizer.tokenize enc name text options).count = (enc.encodeAll text).length := by
  simp only [TiktokenTokenizer.tokenize]
  split <;> rfl

lemma OpenSourceTokenizer.tokenizeCore_tokens (tok : PreTrainedTok) (name : String)
    (b : Bool) (text : Str) (options : TokenizeOptions) :
    (OpenSourceTokenizer.tokenizeCore tok name b text options).tokens = tok.encode text := by
  simp only [OpenSourceTokenizer.tokenizeCore]
  split <;> rfl

lemma OpenSourceTokenizer.tokenizeCore_count (tok : PreTrainedTok) (name : String)
    (b : Bool) (text : Str) (options : TokenizeOptions) :
    (OpenSourceTokenizer.tokenizeCore tok name b text options).count = (tok.encode text).length := by
  simp only [OpenSourceTokenizer.tokenizeCore]
  split <;> rfl

lemma orFalsy_pos (o : Option Nat) (d : Nat) (hd : 1 ≤ d) : 1 ≤ orFalsy o d := by
  match o with
  | none => exact hd
  | some 0 => exact hd
  | some (n + 1) => exact Nat.succ_le_succ (Nat.zero_le n)

lemma chunkTextLoop_spec (text : Str) (chunkSize : Nat) (hc : 1 ≤ chunkSize) :
    ∀ fuel i, text.length - i < fuel →
      ∃ cs, chunkTextLoop text chunkSize i fuel = some cs ∧
        cs.flatten = text.drop i ∧ ∀ c ∈ cs, c.length ≤ chunkSize := by
  intro fuel
  induction fuel with
  | zero => intro i h; omega
  | succ fuel ih =>
    intro i h
    unfold chunkTextLoop
    by_cases hi : i < text.length
    · obtain ⟨cs, hcs, hflat, hlen⟩ := ih (i + chunkSize) (by omega)
      rw [if_pos hi, hcs]
      refine ⟨_, rfl, ?_, ?_⟩
      · rw [List.flatten_cons, hflat]
        have hdd : text.drop (i + chunkSize) = (text.drop i).drop chunkSize := by
          rw [List.drop_drop]
        rw [hdd, List.take_append_drop]
      · intro c hcmem
        rcases List.mem_cons.mp hcmem with hhd | htl
        · subst hhd
          calc ((text.drop i).take chunkSize).length
              = chunkSize ⊓ (text.drop i).length := List.length_take _ _
            _ ≤ chunkSize := inf_le_left
        · exact hlen c htl
    · rw [if_neg hi]
      refine ⟨[], rfl, ?_, by intro c hcm; cases hcm⟩
      rw [List.flatten_nil, List.drop_eq_nil_of_le (by omega)]

lemma chunkText_spec (text : Str) (chunkSize : Nat) (hc : 1 ≤ chunkSize) :
    (chunkTextLoop text chunkSize 0 (text.length + 1)).isSome = true ∧
      (chunkText text chunkSize).flatten = text ∧
      ∀ c ∈ chunkText text chunkSize, c.length ≤ chunkSize := by
  obtain ⟨cs, hcs, hflat, hlen⟩ :=
    chunkTextLoop_spec text chunkSize hc (text.length + 1) 0 (by omega)
  rw [List.drop_zero] at hflat
  unfold chunkText
  rw [hcs]
  exact ⟨rfl, hflat, hlen⟩

lemma chunkTextLoop_zero_diverges (text : Str) (h : text ≠ []) :
    ∀ fuel, chunkTextLoop text 0 0 fuel = none := by
  intro fuel
  induction fuel with
  | zero => rfl
  | succ fuel ih =>
    have hpos : 0 < text.length := List.length_pos.mpr h
    unfold chunkTextLoop
    rw [if_pos hpos]
    simp only [Nat.add_zero] at ih ⊢
    rw [ih]

lemma adjustSegment_text (off : Nat) (s : Segment) :
    (adjustSegment off s).text = s.text := rfl

lemma segmentChunks_texts (segs : Str → List Segment) (enc : Str → List Nat)
    (hseg : ∀ c : Str, ((segs c).map Segment.text).flatten = c) :
    ∀ chunks off,
      ((segmentChunks segs enc chunks off).map Segment.text).flatten = chunks.flatten := by
  intro chunks
  induction chunks with
  | nil => intro off; rfl
  | cons c rest ih =>
    intro off
    unfold segmentChunks
    rw [List.map_append, List.flatten_append, ih, List.flatten_cons]
    congr 1
    rw [List.map_map]
    have : (Segment.text ∘ adjustSegment off) = Segment.text := by
      funext s; rfl
    rw [this, hseg]

lemma idxList_nil : idxList [] = [] := rfl

lemma idxList_append (a b : List Segment) : idxList (a ++ b) = idxList a ++ idxList b := by
  unfold idxList
  rw [List.map_append, List.flatten_append]

lemma idxList_adjust (off : Nat) (segs : List Segment) :
    idxList (segs.map (adjustSegment off)) = (idxList segs).map (· + off) := by
  induction segs with
  | nil => rfl
  | cons s rest ih =>
    unfold idxList at ih ⊢
    simp only [List.map_cons, List.flatten_cons, List.map_append]
    rw [ih]
    congr 1
    unfold adjustSegment
    rw [List.map_map, List.map_map]
    rfl

lemma segmentChunks_chain (segs : Str → List Segment) (enc : Str → List Nat)
    (hmono : ∀ c, List.Chain' (· ≤ ·) (idxList (segs c)))
    (hbound : ∀ c, ∀ i ∈ idxList (segs c), i ≤ (enc c).length) :
    ∀ chunks off,
      List.Chain' (· ≤ ·) (idxList (segmentChunks segs enc chunks off)) ∧
        ∀ x ∈ idxList (segmentChunks segs enc chunks off), off ≤ x := by
  intro chunks
  induction chunks with
  | nil =>
    intro off
    exact ⟨List.chain'_nil, by intro x hx; cases hx⟩
  | cons c rest ih =>
    intro off
    obtain ⟨ihChain, ihLow⟩ := ih (off + (enc c).length)
    have hsplit : idxList (segmentChunks segs enc (c :: rest) off)
        = (idxList (segs c)).map (· + off)
          ++ idxList (segmentChunks segs enc rest (off + (enc c).length)) := by
      simp only [segmentChunks]
      rw [idxList_append, idxList_adjust]
    constructor
    · rw [hsplit, List.chain'_append]
      refine ⟨?_, ihChain, ?_⟩
      · rw [List.chain'_map]
        exact List.Chain'.imp (fun a b h => Nat.add_le_add_right h off) (hmono c)
      · intro x hx y hy
        have hxmem := List.mem_of_mem_getLast? hx
        have hymem := List.mem_of_mem_head? hy
        obtain ⟨i, hi, rfl⟩ := List.mem_map.mp hxmem
        have h1 : i ≤ (enc c).length := hbound c i hi
        have h2 : off + (enc c).length ≤ y := ihLow y hymem
        omega
    · intro x hx
      rw [hsplit] at hx
      rcases List.mem_append.mp hx with hleft | hright
      · obtain ⟨i, _, rfl⟩ := List.mem_map.mp hleft
        omega
      · have := ihLow x hright
        omega

lemma TiktokenTokenizer.fastMode_forces_fast_tik (text : Str) (n : Nat)
    (options : TokenizeOptions) (h : options.fastMode = true) :
    TiktokenTokenizer.shouldUseFastMode text n options = true := by
  unfold TiktokenTokenizer.shouldUseFastMode
  rw [h]
  rfl

lemma OpenSourceTokenizer.fastMode_forces_fast_oss (text : Str) (n : Nat)
    (options : TokenizeOptions) (h : options.fastMode = true) :
    OpenSourceTokenizer.shouldUseFastMode text n options = true := by
  unfold OpenSourceTokenizer.shouldUseFastMode
  rw [h]
  rfl

/- ------------------------------------------------------------------
Claims.
------------------------------------------------------------------ -/

/-- Claim C1: for every adapter (encoding-engine or pretrained-vocabulary),
every input text and every `TokenizeOptions` value, the `TokenizerResult`
returned by `tokenize` satisfies `count = length(tokens)`, in both fast
mode and full-segment mode. -/
theorem claim_C1_count_eq_length (enc : TiktokenEncoding) (tok : PreTrainedTok)
    (name : String) (text : Str) (options : TokenizeOptions) :
    (TiktokenTokenizer.tokenize enc name text options).count
      = (TiktokenTokenizer.tokenize enc name text options).tokens.length ∧
    (OpenSourceTokenizer.tokenize tok name text options).count
      = (OpenSourceTokenizer.tokenize tok name text options).tokens.length := by
  constructor
  · rw [TiktokenTokenizer.tokenize_count, TiktokenTokenizer.tokenize_tokens]
  · unfold OpenSourceTokenizer.tokenize
    rw [OpenSourceTokenizer.tokenizeCore_count, OpenSourceTokenizer.tokenizeCore_tokens]

/-- Claim C3: for every input text, `tokenize` with `fastMode: true`
returns an empty segment list, and its `tokens` and `count` equal those of
the run on the same input without fast mode — the `fastMode` option does
not influence `tokens` or `count` — for both adapters. -/
theorem claim_C3_fast_mode_two_runs (enc : TiktokenEncoding) (tok : PreTrainedTok)
    (name : String) (text : Str) (options : TokenizeOptions) :
    (TiktokenTokenizer.tokenize enc name text { options with fastMode := true }).segments = [] ∧
    (TiktokenTokenizer.tokenize enc name text { options with fastMode := true }).tokens
      = (TiktokenTokenizer.tokenize enc name text { options with fastMode := false }).tokens ∧
    (TiktokenTokenizer.tokenize enc name text { options with fastMode := true }).count
      = (TiktokenTokenizer.tokenize enc name text { options with fastMode := false }).count ∧
    (OpenSourceTokenizer.tokenize tok name text { options with fastMode := true }).segments = [] ∧
    (OpenSourceTokenizer.tokenize tok name text { options with fastMode := true }).tokens
      = (OpenSourceTokenizer.tokenize tok name text { options with fastMode := false }).tokens ∧
    (OpenSourceTokenizer.tokenize tok name text { options with fastMode := true }).count
      = (OpenSourceTokenizer.tokenize tok name text { options with fastMode := false }).count := by
  have hT := TiktokenTokenizer.fastMode_forces_fast_tik text (enc.encodeAll text).length
    { options with fastMode := true } rfl
  have hO := OpenSourceTokenizer.fastMode_forces_fast_oss text (tok.encode text).length
    { options with fastMode := true } rfl
  refine ⟨?_, ?_, ?_, ?_, ?_, ?_⟩
  · simp only [TiktokenTokenizer.tokenize]
    rw [if_pos hT]
  · rw [TiktokenTokenizer.tokenize_tokens, TiktokenTokenizer.tokenize_tokens]
  · rw [TiktokenTokenizer.tokenize_count, TiktokenTokenizer.tokenize_count]
  · unfold OpenSourceTokenizer.tokenize
    simp only [OpenSourceTokenizer.tokenizeCore]
    rw [if_pos hO]
  · unfold OpenSourceTokenizer.tokenize
    rw [OpenSourceTokenizer.tokenizeCore_tokens, OpenSourceTokenizer.tokenizeCore_tokens]
  · unfold OpenSourceTokenizer.tokenize
    rw [OpenSourceTokenizer.tokenizeCore_count, OpenSourceTokenizer.tokenizeCore_count]

/-- Claim C10: under the precondition `chunkSize ≥ 1`, `chunkText` is
total — the loop terminates within `text.length + 1` iterations for every
input — and returns contiguous, non-overlapping substrings of length at
most `chunkSize` whose in-order concatenation is the input text; for
`chunkSize = 0` on non-empty text the loop index never advances, so no
amount of fuel makes the loop finish. -/
theorem claim_C10_chunkText_total (text : Str) (chunkSize : Nat) :
    (1 ≤ chunkSize →
      (chunkTextLoop text chunkSize 0 (text.length + 1)).isSome = true ∧
      (chunkText text chunkSize).flatten = text ∧
      ∀ c ∈ chunkText text chunkSize, c.length ≤ chunkSize) ∧
    (text ≠ [] → ∀ fuel, chunkTextLoop text 0 0 fuel = none) :=
  ⟨fun hc => chunkText_spec text chunkSize hc,
   fun h => chunkTextLoop_zero_diverges text h⟩

/-- Witness for C10 at the concrete text `"abc"` with chunk sizes 2 and 0. -/
theorem claim_C10_witness :
    ((chunkTextLoop ['a', 'b', 'c'] 2 0 (['a', 'b', 'c'].length + 1)).isSome = true ∧
      (chunkText ['a', 'b', 'c'] 2).flatten = ['a', 'b', 'c'] ∧
      ∀ c ∈ chunkText ['a', 'b', 'c'] 2, c.length ≤ 2) ∧
    (∀ fuel, chunkTextLoop ['a', 'b', 'c'] 0 0 fuel = none) :=
  ⟨(claim_C10_chunkText_total ['a', 'b', 'c'] 2).1 (by decide),
   (claim_C10_chunkText_total ['a', 'b', 'c'] 0).2 (by decide)⟩

lemma orFalsy_eq_getD (o : Option Nat) (d : Nat) (h : o ≠ some 0) :
    orFalsy o d = o.getD d := by
  match o with
  | none => rfl
  | some 0 => exact absurd rfl h
  | some (n + 1) => rfl

lemma TiktokenTokenizer.getSegmentsOptimized_texts_tik (enc : TiktokenEncoding)
    (text : Str) (options : TokenizeOptions)
    (hseg : ∀ c : Str, ((enc.segments c).map Segment.text).flatten = c) :
    ((TiktokenTokenizer.getSegmentsOptimized enc text options).map Segment.text).flatten
      = text := by
  simp only [TiktokenTokenizer.getSegmentsOptimized]
  split
  · exact hseg text
  · rw [segmentChunks_texts enc.segments enc.encode hseg,
      (chunkText_spec text (orFalsy options.chunkSize 5000)
        (orFalsy_pos _ _ (by omega))).2.1]

lemma OpenSourceTokenizer.getSegmentsOptimized_texts_oss (tok : PreTrainedTok)
    (text : Str) (b : Bool) (options : TokenizeOptions)
    (hseg : ∀ (c : Str) (b' : Bool), ((tok.segments c b').map Segment.text).flatten = c) :
    ((OpenSourceTokenizer.getSegmentsOptimized tok text b options).map Segment.text).flatten
      = text := by
  simp only [OpenSourceTokenizer.getSegmentsOptimized]
  split
  · exact hseg text b
  · rw [segmentChunks_texts (fun c => tok.segments c b) tok.encode (fun c => hseg c b),
      (chunkText_spec text (orFalsy options.chunkSize 3000)
        (orFalsy_pos _ _ (by omega))).2.1]

/-- Counterexample to claim C2 as stated: the spec asserts the
concatenation property for any text and any chunkSize with no carve-out
for fast mode, but a 10001-character input trips the encoding adapter's
automatic fast-mode trigger under default options, so `tokenize` returns
an empty segment list whose concatenation is not the input.  The
demonstration engine satisfies the lossless per-chunk hypothesis, so the
failure is due to fast mode alone. -/
theorem claim_C2_counterexample :
    ((TiktokenTokenizer.tokenize demoEncoding "demo" longText {}).segments.map
        Segment.text).flatten ≠ longText := by
  have h1 : longText.length = 10001 := List.length_replicate _ _
  have hfast : TiktokenTokenizer.shouldUseFastMode longText
      (demoEncoding.encodeAll longText).length {} = true := by
    unfold TiktokenTokenizer.shouldUseFastMode
    simp [h1]
  have hseg : (TiktokenTokenizer.tokenize demoEncoding "demo" longText {}).segments = [] := by
    simp only [TiktokenTokenizer.tokenize]
    rw [if_pos hfast]
  rw [hseg]
  intro h
  have hlen := congrArg List.length h
  simp only [List.map_nil, List.flatten_nil, List.length_nil, h1] at hlen
  omega

/-- Claim C2 (amended): for any text and any chunkSize, provided the call
does not select fast mode, joining the text fields of all segments
returned by `tokenize`, in order, reproduces the input text exactly, under
the hypothesis that the engine's per-chunk aligned segments are a lossless
decomposition of the chunk they were computed over; in fast mode the
segment list is empty instead. -/
theorem claim_C2_amended_concatenation (enc : TiktokenEncoding) (tok : PreTrainedTok)
    (name : String) (text : Str) (options : TokenizeOptions)
    (hT : ∀ c : Str, ((enc.segments c).map Segment.text).flatten = c)
    (hO : ∀ (c : Str) (b : Bool), ((tok.segments c b).map Segment.text).flatten = c) :
    (TiktokenTokenizer.shouldUseFastMode text (enc.encodeAll text).length options = false →
      ((TiktokenTokenizer.tokenize enc name text options).segments.map Segment.text).flatten
        = text) ∧
    (OpenSourceTokenizer.shouldUseFastMode text (tok.encode text).length options = false →
      ((OpenSourceTokenizer.tokenize tok name text options).segments.map Segment.text).flatten
        = text) := by
  constructor
  · intro hf
    simp only [TiktokenTokenizer.tokenize]
    rw [if_neg (by rw [hf]; exact Bool.false_ne_true)]
    exact TiktokenTokenizer.getSegmentsOptimized_texts_tik enc text options hT
  · intro hf
    unfold OpenSourceTokenizer.tokenize
    simp only [OpenSourceTokenizer.tokenizeCore]
    rw [if_neg (by rw [hf]; exact Bool.false_ne_true)]
    exact OpenSourceTokenizer.getSegmentsOptimized_texts_oss tok text _ options hO

/-- Witness for the amended C2 on the text `"abc"` with chunkSize 2 (which
exercises the chunked path on both adapters). -/
theorem claim_C2_witness :
    (∀ c : Str, ((demoEncoding.segments c).map Segment.text).flatten = c) ∧
    (∀ (c : Str) (b : Bool), ((demoPreTrained.segments c b).map Segment.text).flatten = c) ∧
    TiktokenTokenizer.shouldUseFastMode ['a', 'b', 'c']
      (demoEncoding.encodeAll ['a', 'b', 'c']).length { chunkSize := some 2 } = false ∧
    ((TiktokenTokenizer.tokenize demoEncoding "demo" ['a', 'b', 'c']
        { chunkSize := some 2 }).segments.map Segment.text).flatten = ['a', 'b', 'c'] ∧
    OpenSourceTokenizer.shouldUseFastMode ['a', 'b', 'c']
      (demoPreTrained.encode ['a', 'b', 'c']).length { chunkSize := some 2 } = false ∧
    ((OpenSourceTokenizer.tokenize demoPreTrained "demo" ['a', 'b', 'c']
        { chunkSize := some 2 }).segments.map Segment.text).flatten = ['a', 'b', 'c'] := by
  have hT : ∀ c : Str, ((demoEncoding.segments c).map Segment.text).flatten = c := by
    intro c
    simp [demoEncoding, demoSegs]
  have hO : ∀ (c : Str) (b : Bool),
      ((demoPreTrained.segments c b).map Segment.text).flatten = c := by
    intro c b
    simp [demoPreTrained, demoSegs]
  refine ⟨hT, hO, by decide, ?_, by decide, ?_⟩
  · exact (claim_C2_amended_concatenation demoEncoding demoPreTrained "demo"
      ['a', 'b', 'c'] { chunkSize := some 2 } hT hO).1 (by decide)
  · exact (claim_C2_amended_concatenation demoEncoding demoPreTrained "demo"
      ['a', 'b', 'c'] { chunkSize := some 2 } hT hO).2 (by decide)

/-- Claim C4: `shouldUseFastMode` returns true exactly when the caller
explicitly requests fast mode, or the text length exceeds the adapter's
trigger-length (10000 characters for the encoding-engine adapter, 5000
for the pretrained-vocabulary adapter), or the token count exceeds
`options.maxTokens` when supplied (as a positive value, per the spec's
option type) and otherwise the adapter default (2000 resp. 1500); and
whenever it returns true, `tokenize` returns empty segments but fully
computed tokens and count. -/
theorem claim_C4_shouldUseFastMode_spec (enc : TiktokenEncoding) (tok : PreTrainedTok)
    (name : String) (text : Str) (tokenCount : Nat) (options : TokenizeOptions)
    (hpos : options.maxTokens ≠ some 0) :
    (TiktokenTokenizer.shouldUseFastMode text tokenCount options = true ↔
      (options.fastMode = true ∨ text.length > 10000 ∨
        tokenCount > options.maxTokens.getD 2000)) ∧
    (OpenSourceTokenizer.shouldUseFastMode text tokenCount options = true ↔
      (options.fastMode = true ∨ text.length > 5000 ∨
        tokenCount > options.maxTokens.getD 1500)) ∧
    (TiktokenTokenizer.shouldUseFastMode text (enc.encodeAll text).length options = true →
      (TiktokenTokenizer.tokenize enc name text options).segments = [] ∧
      (TiktokenTokenizer.tokenize enc name text options).tokens = enc.encodeAll text ∧
      (TiktokenTokenizer.tokenize enc name text options).count
        = (enc.encodeAll text).length) ∧
    (OpenSourceTokenizer.shouldUseFastMode text (tok.encode text).length options = true →
      (OpenSourceTokenizer.tokenize tok name text options).segments = [] ∧
      (OpenSourceTokenizer.tokenize tok name text options).tokens = tok.encode text ∧
      (OpenSourceTokenizer.tokenize tok name text options).count
        = (tok.encode text).length) := by
  refine ⟨?_, ?_, ?_, ?_⟩
  · unfold TiktokenTokenizer.shouldUseFastMode
    rw [orFalsy_eq_getD _ _ hpos]
    by_cases h1 : options.fastMode <;>
      by_cases h2 : text.length > 10000 <;>
      by_cases h3 : tokenCount > options.maxTokens.getD 2000 <;>
      simp [h1, h2, h3]
  · unfold OpenSourceTokenizer.shouldUseFastMode
    rw [orFalsy_eq_getD _ _ hpos]
    by_cases h1 : options.fastMode <;>
      by_cases h2 : text.length > 5000 <;>
      by_cases h3 : tokenCount > options.maxTokens.getD 1500 <;>
      simp [h1, h2, h3]
  · intro hf
    refine ⟨?_, TiktokenTokenizer.tokenize_tokens enc name text options,
      TiktokenTokenizer.tokenize_count enc name text options⟩
    simp only [TiktokenTokenizer.tokenize]
    rw [if_pos hf]
  · intro hf
    refine ⟨?_, ?_, ?_⟩
    · unfold OpenSourceTokenizer.tokenize
      simp only [OpenSourceTokenizer.tokenizeCore]
      rw [if_pos hf]
    · exact OpenSourceTokenizer.tokenizeCore_tokens tok name _ text options
    · exact OpenSourceTokenizer.tokenizeCore_count tok name _ text options

/-- Options used by the C4 witness: `maxTokens` supplied as the positive
value 3. -/
def demoOptions : TokenizeOptions := ⟨false, none, some 3⟩

/-- Witness for C4 at text `"a"`, token count 5, `maxTokens = 3`. -/
theorem claim_C4_witness :
    demoOptions.maxTokens ≠ some 0 ∧
    ((TiktokenTokenizer.shouldUseFastMode ['a'] 5 demoOptions = true ↔
      (demoOptions.fastMode = true ∨ (['a'] : Str).length > 10000 ∨
        5 > demoOptions.maxTokens.getD 2000)) ∧
    (OpenSourceTokenizer.shouldUseFastMode ['a'] 5 demoOptions = true ↔
      (demoOptions.fastMode = true ∨ (['a'] : Str).length > 5000 ∨
        5 > demoOptions.maxTokens.getD 1500)) ∧
    (TiktokenTokenizer.shouldUseFastMode ['a']
        (demoEncoding.encodeAll ['a']).length demoOptions = true →
      (TiktokenTokenizer.tokenize demoEncoding "demo" ['a'] demoOptions).segments = [] ∧
      (TiktokenTokenizer.tokenize demoEncoding "demo" ['a'] demoOptions).tokens
        = demoEncoding.encodeAll ['a'] ∧
      (TiktokenTokenizer.tokenize demoEncoding "demo" ['a'] demoOptions).count
        = (demoEncoding.encodeAll ['a']).length) ∧
    (OpenSourceTokenizer.shouldUseFastMode ['a']
        (demoPreTrained.encode ['a']).length demoOptions = true →
      (OpenSourceTokenizer.tokenize demoPreTrained "demo" ['a'] demoOptions).segments = [] ∧
      (OpenSourceTokenizer.tokenize demoPreTrained "demo" ['a'] demoOptions).tokens
        = demoPreTrained.encode ['a'] ∧
      (OpenSourceTokenizer.tokenize demoPreTrained "demo" ['a'] demoOptions).count
        = (demoPreTrained.encode ['a']).length)) :=
  ⟨by decide,
   claim_C4_shouldUseFastMode_spec demoEncoding demoPreTrained "demo" ['a'] 5 demoOptions
     (by decide)⟩

lemma TiktokenTokenizer.getSegmentsOptimized_chain_tik (enc : TiktokenEncoding)
    (text : Str) (options : TokenizeOptions)
    (hmono : ∀ c, List.Chain' (· ≤ ·) (idxList (enc.segments c)))
    (hbound : ∀ c, ∀ i ∈ idxList (enc.segments c), i ≤ (enc.encode c).length) :
    List.Chain' (· ≤ ·) (idxList (TiktokenTokenizer.getSegmentsOptimized enc text options)) := by
  simp only [TiktokenTokenizer.getSegmentsOptimized]
  split
  · exact hmono text
  · exact (segmentChunks_chain enc.segments enc.encode hmono hbound _ 0).1

lemma OpenSourceTokenizer.getSegmentsOptimized_chain_oss (tok : PreTrainedTok)
    (text : Str) (b : Bool) (options : TokenizeOptions)
    (hmono : ∀ (c : Str) (b' : Bool), List.Chain' (· ≤ ·) (idxList (tok.segments c b')))
    (hbound : ∀ (c : Str) (b' : Bool), ∀ i ∈ idxList (tok.segments c b'),
      i ≤ (tok.encode c).length) :
    List.Chain' (· ≤ ·)
      (idxList (OpenSourceTokenizer.getSegmentsOptimized tok text b options)) := by
  simp only [OpenSourceTokenizer.getSegmentsOptimized]
  split
  · exact hmono text b
  · exact (segmentChunks_chain (fun c => tok.segments c b) tok.encode
      (fun c => hmono c b) (fun c => hbound c b) _ 0).1

/-- Claim C6: for every segment list returned by `tokenize`, the `idx`
values across the whole list are non-decreasing, under the hypothesis that
the external engine's aligned segments for a single chunk carry
non-decreasing `idx` values bounded by that chunk's own token count (the
count of the chunk re-encoding used for the running offset); in the
chunked path this holds after each chunk's `idx` values are rewritten by
adding the running offset of tokens produced by all prior chunks. -/
theorem claim_C6_idx_monotone (enc : TiktokenEncoding) (tok : PreTrainedTok)
    (name : String) (text : Str) (options : TokenizeOptions)
    (hmonoT : ∀ c, List.Chain' (· ≤ ·) (idxList (enc.segments c)))
    (hboundT : ∀ c, ∀ i ∈ idxList (enc.segments c), i ≤ (enc.encode c).length)
    (hmonoO : ∀ (c : Str) (b : Bool), List.Chain' (· ≤ ·) (idxList (tok.segments c b)))
    (hboundO : ∀ (c : Str) (b : Bool), ∀ i ∈ idxList (tok.segments c b),
      i ≤ (tok.encode c).length) :
    List.Chain' (· ≤ ·)
      (idxList (TiktokenTokenizer.tokenize enc name text options).segments) ∧
    List.Chain' (· ≤ ·)
      (idxList (OpenSourceTokenizer.tokenize tok name text options).segments) := by
  constructor
  · simp only [TiktokenTokenizer.tokenize]
    split
    · exact List.chain'_nil
    · exact TiktokenTokenizer.getSegmentsOptimized_chain_tik enc text options hmonoT hboundT
  · unfold OpenSourceTokenizer.tokenize
    simp only [OpenSourceTokenizer.tokenizeCore]
    split
    · exact List.chain'_nil
    · exact OpenSourceTokenizer.getSegmentsOptimized_chain_oss tok text _ options hmonoO hboundO

/-- Witness for C6 on the text `"abcd"` with chunkSize 2 (chunked path on
both adapters), with a demonstration engine satisfying the monotonicity
and boundedness hypotheses. -/
theorem claim_C6_witness :
    (∀ c, List.Chain' (· ≤ ·) (idxList (demoEncoding.segments c))) ∧
    (∀ c, ∀ i ∈ idxList (demoEncoding.segments c), i ≤ (demoEncoding.encode c).length) ∧
    (∀ (c : Str) (b : Bool), List.Chain' (· ≤ ·) (idxList (demoPreTrained.segments c b))) ∧
    (∀ (c : Str) (b : Bool), ∀ i ∈ idxList (demoPreTrained.segments c b),
      i ≤ (demoPreTrained.encode c).length) ∧
    List.Chain' (· ≤ ·) (idxList (TiktokenTokenizer.tokenize demoEncoding "demo"
      ['a', 'b', 'c', 'd'] { chunkSize := some 2 }).segments) ∧
    List.Chain' (· ≤ ·) (idxList (OpenSourceTokenizer.tokenize demoPreTrained "demo"
      ['a', 'b', 'c', 'd'] { chunkSize := some 2 }).segments) := by
  have hmonoT : ∀ c, List.Chain' (· ≤ ·) (idxList (demoEncoding.segments c)) := by
    intro c
    simp [demoEncoding, demoSegs, idxList]
  have hboundT : ∀ c, ∀ i ∈ idxList (demoEncoding.segments c),
      i ≤ (demoEncoding.encode c).length := by
    intro c i hi
    simp [demoEncoding, demoSegs, idxList] at hi
    simp [hi]
  have hmonoO : ∀ (c : Str) (b : Bool),
      List.Chain' (· ≤ ·) (idxList (demoPreTrained.segments c b)) := by
    intro c b
    simp [demoPreTrained, demoSegs, idxList]
  have hboundO : ∀ (c : Str) (b : Bool), ∀ i ∈ idxList (demoPreTrained.segments c b),
      i ≤ (demoPreTrained.encode c).length := by
    intro c b i hi
    simp [demoPreTrained, demoSegs, idxList] at hi
    simp [hi]
  obtain ⟨h1, h2⟩ := claim_C6_idx_monotone demoEncoding demoPreTrained "demo"
    ['a', 'b', 'c', 'd'] { chunkSize := some 2 } hmonoT hboundT hmonoO hboundO
  exact ⟨hmonoT, hboundT, hmonoO, hboundO, h1, h2⟩

/-- Claim C8: constructing the encoding-engine adapter for
`text-embedding-3-small` or `text-embedding-3-large` fails with the
"too new" construction error even though both identifiers are accepted by
the model catalog, while every other catalog-valid encoding or model
identifier constructs successfully. -/
theorem claim_C8_too_new_rejected (encName : String → Option String) (fresh : Nat)
    (m : String) (hm : m ∈ oaiModels ∨ m ∈ oaiEncodings)
    (hs : m ≠ "text-embedding-3-small") (hl : m ≠ "text-embedding-3-large") :
    (TiktokenTokenizer.construct encName "text-embedding-3-small" fresh).isOk = false ∧
    (TiktokenTokenizer.construct encName "text-embedding-3-large" fresh).isOk = false ∧
    ("text-embedding-3-small" ∈ oaiModels ∧ "text-embedding-3-large" ∈ oaiModels) ∧
    (TiktokenTokenizer.construct encName m fresh).isOk = true := by
  refine ⟨?_, ?_, ⟨by decide, by decide⟩, ?_⟩
  · unfold TiktokenTokenizer.construct
    rw [if_pos (show ("text-embedding-3-small" : String) ∈ oaiModels by decide),
      if_pos (Or.inl rfl)]
    rfl
  · unfold TiktokenTokenizer.construct
    rw [if_pos (show ("text-embedding-3-large" : String) ∈ oaiModels by decide),
      if_pos (Or.inr rfl)]
    rfl
  · unfold TiktokenTokenizer.construct
    rcases hm with hmod | henc
    · rw [if_pos hmod, if_neg (fun hor => hor.elim hs hl)]
      rfl
    · by_cases hmod : m ∈ oaiModels
      · rw [if_pos hmod, if_neg (fun hor => hor.elim hs hl)]
        rfl
      · rw [if_neg hmod, if_pos henc]
        rfl

/-- Witness for C8 at the catalog-valid identifier `gpt-4o`. -/
theorem claim_C8_witness :
    (("gpt-4o" : String) ∈ oaiModels ∨ ("gpt-4o" : String) ∈ oaiEncodings) ∧
    ((TiktokenTokenizer.construct (fun _ => none) "text-embedding-3-small" 0).isOk = false ∧
     (TiktokenTokenizer.construct (fun _ => none) "text-embedding-3-large" 0).isOk = false ∧
     (("text-embedding-3-small" : String) ∈ oaiModels ∧
       ("text-embedding-3-large" : String) ∈ oaiModels) ∧
     (TiktokenTokenizer.construct (fun _ => none) "gpt-4o" 0).isOk = true) :=
  ⟨Or.inl (by decide),
   claim_C8_too_new_rejected (fun _ => none) 0 "gpt-4o" (Or.inl (by decide))
     (by decide) (by decide)⟩

/-- Claim C9: the quirk list `hackModelsRemoveFirstToken` is disjoint from
the `openSourceModels` catalog, so for every open-source model reachable
through `createTokenizer` the remove-first-token flag computed in
`OpenSourceTokenizer.tokenize` is false and the quirk never affects any
returned segment list. -/
theorem claim_C9_remove_first_token_never (n : String) (hn : n ∈ openSourceModels) :
    hackModelsRemoveFirstToken.contains n = false ∧
    ∀ (tok : PreTrainedTok) (text : Str) (options : TokenizeOptions),
      OpenSourceTokenizer.tokenize tok n text options
        = OpenSourceTokenizer.tokenizeCore tok n false text options := by
  have hn' : n = "deepseek-ai/DeepSeek-R1" ∨ n = "Qwen/Qwen2.5-72B" ∨
      n = "01-ai/Yi-6B" ∨ n = "openai/whisper-tiny" := by
    simpa [openSourceModels] using hn
  rcases hn' with rfl | rfl | rfl | rfl <;>
    exact ⟨by decide, fun tok text options => rfl⟩

/-- Witness for C9 at the open-source model `deepseek-ai/DeepSeek-R1`. -/
theorem claim_C9_witness :
    ("deepseek-ai/DeepSeek-R1" : String) ∈ openSourceModels ∧
    (hackModelsRemoveFirstToken.contains "deepseek-ai/DeepSeek-R1" = false ∧
     ∀ (tok : PreTrainedTok) (text : Str) (options : TokenizeOptions),
       OpenSourceTokenizer.tokenize tok "deepseek-ai/DeepSeek-R1" text options
         = OpenSourceTokenizer.tokenizeCore tok "deepseek-ai/DeepSeek-R1" false text options) :=
  ⟨by decide, claim_C9_remove_first_token_never "deepseek-ai/DeepSeek-R1" (by decide)⟩

/-- Claim C5: a successful `createTokenizer` call inserts its adapter
under the key `(identifier, remoteHost-or-default)`, and a second call
with the same identifier and same (or absent) host override returns the
very same instance without touching the state — in particular without a
second expensive construction (the construction counter of the state is
unchanged). -/
theorem claim_C5_cache_identity (encName : String → Option String)
    (loadOk : String → Bool) (name : String) (hostInfo : Option String)
    (s s₁ : CacheState) (t : Inst)
    (h : createTokenizer encName loadOk name hostInfo s = (Except.ok t, s₁)) :
    cacheLookup (cacheKeyOf name hostInfo) s₁.cache = some t ∧
    createTokenizer encName loadOk name hostInfo s₁ = (Except.ok t, s₁) := by
  have hkey : cacheLookup (cacheKeyOf name hostInfo) s₁.cache = some t := by
    simp only [createTokenizer] at h
    cases hlook : cacheLookup (cacheKeyOf name hostInfo) s.cache with
    | some t' =>
      rw [hlook] at h
      injection h with hA hB
      injection hA with hA'
      subst hA'
      subst hB
      exact hlook
    | none =>
      rw [hlook] at h
      by_cases h1 : name ∈ oaiEncodings
      · rw [if_pos h1] at h
        cases hc : TiktokenTokenizer.construct encName name s.nextId with
        | error e =>
          rw [hc] at h
          simp at h
        | ok t' =>
          rw [hc] at h
          injection h with hA hB
          injection hA with hA'
          subst hA'
          subst hB
          unfold cacheLookup
          rw [if_pos rfl]
      · rw [if_neg h1] at h
        by_cases h2 : name ∈ oaiModels
        · rw [if_pos h2] at h
          cases hc : TiktokenTokenizer.construct encName name s.nextId with
          | error e =>
            rw [hc] at h
            simp at h
          | ok t' =>
            rw [hc] at h
            injection h with hA hB
            injection hA with hA'
            subst hA'
            subst hB
            unfold cacheLookup
            rw [if_pos rfl]
        · rw [if_neg h2] at h
          by_cases h3 : name ∈ openSourceModels
          · rw [if_pos h3] at h
            by_cases h4 : loadOk name = true
            · rw [if_pos h4] at h
              injection h with hA hB
              injection hA with hA'
              subst hA'
              subst hB
              unfold cacheLookup
              rw [if_pos rfl]
            · rw [if_neg h4] at h
              simp at h
          · rw [if_neg h3] at h
            simp at h
  refine ⟨hkey, ?_⟩
  simp only [createTokenizer]
  rw [hkey]

/-- Witness for C5: resolving `cl100k_base` twice from an empty cache. -/
theorem claim_C5_witness :
    createTokenizer (fun _ => none) (fun _ => true) "cl100k_base" none ⟨[], 0, 0⟩
      = (Except.ok ⟨0, "cl100k_base", TokKind.tiktoken⟩,
         ⟨[(cacheKeyOf "cl100k_base" none, ⟨0, "cl100k_base", TokKind.tiktoken⟩)], 1, 1⟩) ∧
    (cacheLookup (cacheKeyOf "cl100k_base" none)
        (⟨[(cacheKeyOf "cl100k_base" none, ⟨0, "cl100k_base", TokKind.tiktoken⟩)], 1, 1⟩
          : CacheState).cache
      = some ⟨0, "cl100k_base", TokKind.tiktoken⟩ ∧
     createTokenizer (fun _ => none) (fun _ => true) "cl100k_base" none
        ⟨[(cacheKeyOf "cl100k_base" none, ⟨0, "cl100k_base", TokKind.tiktoken⟩)], 1, 1⟩
      = (Except.ok ⟨0, "cl100k_base", TokKind.tiktoken⟩,
         ⟨[(cacheKeyOf "cl100k_base" none, ⟨0, "cl100k_base", TokKind.tiktoken⟩)], 1, 1⟩)) :=
  ⟨rfl, claim_C5_cache_identity (fun _ => none) (fun _ => true) "cl100k_base" none
    ⟨[], 0, 0⟩ _ _ rfl⟩

/-- Claim C7: whenever `createTokenizer` fails (invalid identifier, a
throwing adapter constructor such as the "too new" rejection, or a failed
remote vocabulary load), the cache state is left unchanged, so the
requested key — if absent before the call — is still absent and a later
call retries construction. -/
theorem claim_C7_failure_leaves_cache (encName : String → Option String)
    (loadOk : String → Bool) (name : String) (hostInfo : Option String)
    (s : CacheState) (e : String)
    (h : (createTokenizer encName loadOk name hostInfo s).1 = Except.error e) :
    (createTokenizer encName loadOk name hostInfo s).2 = s ∧
    (cacheLookup (cacheKeyOf name hostInfo) s.cache = none →
      cacheLookup (cacheKeyOf name hostInfo)
        ((createTokenizer encName loadOk name hostInfo s).2).cache = none) := by
  have hstate : (createTokenizer encName loadOk name hostInfo s).2 = s := by
    simp only [createTokenizer] at h ⊢
    cases hlook : cacheLookup (cacheKeyOf name hostInfo) s.cache with
    | some t =>
      rw [hlook] at h
    | none =>
      rw [hlook] at h
      by_cases h1 : name ∈ oaiEncodings
      · rw [if_pos h1] at h ⊢
        cases hc : TiktokenTokenizer.construct encName name s.nextId with
        | error e' => rfl
        | ok t =>
          rw [hc] at h
          simp at h
      · rw [if_neg h1] at h ⊢
        by_cases h2 : name ∈ oaiModels
        · rw [if_pos h2] at h ⊢
          cases hc : TiktokenTokenizer.construct encName name s.nextId with
          | error e' => rfl
          | ok t =>
            rw [hc] at h
            simp at h
        · rw [if_neg h2] at h ⊢
          by_cases h3 : name ∈ openSourceModels
          · rw [if_pos h3] at h ⊢
            by_cases h4 : loadOk name = true
            · rw [if_pos h4] at h
              simp at h
            · rw [if_neg h4]
          · rw [if_neg h3]
  exact ⟨hstate, fun habs => by rw [hstate]; exact habs⟩

/-- Witness for C7: the catalog-valid but engine-rejected identifier
`text-embedding-3-small` fails and leaves the empty cache state intact. -/
theorem claim_C7_witness :
    (createTokenizer (fun _ => none) (fun _ => true) "text-embedding-3-small" none
        ⟨[], 0, 0⟩).1 = Except.error "Model may be too new" ∧
    ((createTokenizer (fun _ => none) (fun _ => true) "text-embedding-3-small" none
        ⟨[], 0, 0⟩).2 = ⟨[], 0, 0⟩ ∧
     (cacheLookup (cacheKeyOf "text-embedding-3-small" none)
        (⟨[], 0, 0⟩ : CacheState).cache = none →
      cacheLookup (cacheKeyOf "text-embedding-3-small" none)
        ((createTokenizer (fun _ => none) (fun _ => true) "text-embedding-3-small" none
          ⟨[], 0, 0⟩).2).cache = none)) :=
  ⟨rfl, claim_C7_failure_leaves_cache (fun _ => none) (fun _ => true)
    "text-embedding-3-small" none ⟨[], 0, 0⟩ "Model may be too new" rfl⟩
